import Mathlib

/-!
# Verification of sshjump's jump-chain builder and supporting code

Shallow embedding of the sshjump repository (jumpconn.go, forward.go,
sshjump.go, jump.go).  Network effects are abstracted into explicit
environments: an environment records, for each dial / handshake / exit-probe
attempt, the outcome the network would have produced, and the embedded
functions thread explicit state (which SSH clients were created, closed and
probed) so that resource-leak and teardown properties can be stated.
SSH clients are identified by the order of their creation (`Nat` ids).
-/

/-! ## Chain builder: `MakeSSHConns` (jumpconn.go lines 33-192)

The Go loop walks the jump records in order; for each it checks the
cancellation token, dials through the current dialer, performs the handshake,
and appends the resulting client.  The embedding indexes jump records by
position and lets the environment decide each attempt's outcome.  The state
records every client ever created (ids `0..nextId-1`), the ids closed so far
(in closing order) and the ids given to `testExit` (in probing order). -/

/-- Outcome of `dialWithTimeout` for one jump attempt, as seen by the loop:
success, an error satisfying `isSSHForwardErr`, or any other error. -/
inductive DialOutcome where
  | ok
  | forwardErr
  | otherErr
  deriving DecidableEq

/-- The network/cancellation environment of one `MakeSSHConns` run.
`dial i` / `handshake i` give the outcome of the attempt on jump record `i`;
`exitOK c` tells whether `testExit` succeeds through client `c`;
`cancelAt i` is `ctx.Err() != nil` at the check opening iteration `i`;
`cancelAfter` is `ctx.Err() != nil` at the check after the loop (line 164). -/
structure BuildEnv where
  dial : Nat → DialOutcome
  handshake : Nat → Bool
  exitOK : Nat → Bool
  cancelAt : Nat → Bool
  cancelAfter : Bool

/-- Resource-tracking state of a build: `nextId` counts the clients created
so far (their ids are `0..nextId-1`), `closed` lists the ids whose `Close`
was called, in order, and `probes` lists the ids passed to `testExit`. -/
structure BuildState where
  nextId : Nat
  closed : List Nat
  probes : List Nat
  deriving DecidableEq

/-- How `MakeSSHConns` can finish: a chain of client ids, one of the three
error returns, or a Go runtime panic (index out of range). -/
inductive BuildOutcome where
  | ok (chain : List Nat)
  | errInterrupt
  | errInsufficient
  | errNoWorkingJumps
  | panicked
  deriving DecidableEq

/-- Record that `testExit` was invoked on client `t`. -/
def probeTail (st : BuildState) (t : Nat) : BuildState :=
  { st with probes := st.probes ++ [t] }

/-- Record that client `t` was closed. -/
def closeClient (st : BuildState) (t : Nat) : BuildState :=
  { st with closed := st.closed ++ [t] }

/-- `CloseJumps` (jumpconn.go lines 196-208): closes the clients of `cs`
starting from the highest index. -/
def closeJumpsSt (st : BuildState) (cs : List Nat) : BuildState :=
  cs.reverse.foldl closeClient st

/-- `removeLastJump` (jumpconn.go lines 309-322): closes the tail client and
drops it from the chain.  `none` models the Go panic on an empty slice
(`cs[len(cs)-1]` with `len(cs) == 0`). -/
def removeLastSt (st : BuildState) (cs : List Nat) : Option (List Nat × BuildState) :=
  match cs.getLast? with
  | none => none
  | some t => some (cs.dropLast, closeClient st t)

/-- The loop body and epilogue of `MakeSSHConns` (jumpconn.go lines 47-191).
`i` is the index of the next jump record, `rem` the number of records left,
`cs` the current chain of client ids. -/
def buildLoop (env : BuildEnv) (njump : Nat) (i rem : Nat) (cs : List Nat)
    (st : BuildState) : BuildOutcome × BuildState :=
  match rem with
  | 0 =>
    -- lines 164-191: after the loop
    if env.cancelAfter then
      -- line 165: return without CloseJumps
      (.errInterrupt, st)
    else if njump ≠ 0 ∧ cs.length < njump then
      -- lines 168-175
      (.errInsufficient, closeJumpsSt st cs)
    else
      -- line 181: testExit(cs[len(cs)-1], exitTest); panics when cs is empty
      match cs.getLast? with
      | none => (.panicked, st)
      | some t =>
        let st1 := probeTail st t
        if env.exitOK t then (.ok cs, st1)
        else if cs.length = 1 then
          -- line 186: return without closing cs[0]
          (.errNoWorkingJumps, st1)
        else
          match removeLastSt st1 cs with
          | none => (.panicked, st1)
          | some (cs2, st2) => (.ok cs2, st2)
  | rem' + 1 =>
    if env.cancelAt i then
      -- lines 49-52: CloseJumps(cs); return interrupt
      (.errInterrupt, closeJumpsSt st cs)
    else
      match env.dial i with
      | .forwardErr =>
        -- lines 70-78: removeLastJump and continue
        match removeLastSt st cs with
        | none => (.panicked, st)
        | some (cs2, st2) => buildLoop env njump (i + 1) rem' cs2 st2
      | .otherErr =>
        -- lines 79-84: log and continue
        buildLoop env njump (i + 1) rem' cs st
      | .ok =>
        if env.handshake i then
          -- lines 140-148: new client appended to the chain
          let id := st.nextId
          let cs2 := cs ++ [id]
          let stA := { st with nextId := id + 1 }
          if njump ≠ 0 ∧ njump ≤ cs2.length then
            -- lines 151-159
            let stB := probeTail stA id
            if env.exitOK id then (.ok cs2, stB)
            else
              match removeLastSt stB cs2 with
              | none => (.panicked, stB)
              | some (cs3, stC) => buildLoop env njump (i + 1) rem' cs3 stC
          else
            buildLoop env njump (i + 1) rem' cs2 stA
        else
          -- lines 123-135: handshake failure closes only the raw TCP conn
          buildLoop env njump (i + 1) rem' cs st

/-- `MakeSSHConns` over `numJumps` jump records with target count `njump`. -/
def MakeSSHConns (env : BuildEnv) (njump numJumps : Nat) :
    BuildOutcome × BuildState :=
  buildLoop env njump 0 numJumps [] ⟨0, [], []⟩

/-! ## `dialWithTimeout` / `killConnFromChannel` (jumpconn.go lines 212-251)

A small-step concurrency model.  `dialWithTimeout` spawns a goroutine that
performs the dial, then sends on the unbuffered channel `ech` and afterwards on
the unbuffered channel `worky`; the main routine selects among the connect
timer, cancellation, and `ech`; on the timer/cancel/error arms it spawns
`killConnFromChannel`, which receives from `worky` and closes a non-nil conn.
Unbuffered channels rendezvous: a send proceeds only when a matching receive is
ready, which the step relation below encodes directly. -/

/-- Program counter of the main routine of `dialWithTimeout`. -/
inductive MainPC where
  | selecting      -- blocked in the select (lines 228-242)
  | recvConn       -- took the `ech` arm with a nil error, now at `<-worky`
  | retTimeout     -- returned `nil, "timeout"`
  | retInterrupt   -- returned `nil, "interrupt"`
  | retErr         -- returned `nil, err`
  | retConn        -- returned the dialed conn
  deriving DecidableEq

/-- Program counter of the dialing goroutine (lines 221-226). -/
inductive DialerPC where
  | dialing    -- inside d.Dial
  | sendErr    -- blocked at `ech <- err`
  | sendConn   -- blocked at `worky <- c`
  | finished
  deriving DecidableEq

/-- Program counter of the `killConnFromChannel` goroutine. -/
inductive KillerPC where
  | notSpawned
  | waiting    -- blocked at `<-ch`
  | done
  deriving DecidableEq

/-- Global state of one `dialWithTimeout` call.  `dialOk` is the result of
the underlying dial (meaningful once the dialer left `dialing`: `true` means a
non-nil conn with nil error).  `connClosed` records whether the dialed conn's
`Close` has been invoked. -/
structure DWState where
  main : MainPC
  dialer : DialerPC
  killer : KillerPC
  timerFired : Bool
  ctxDone : Bool
  dialOk : Bool
  connClosed : Bool
  deriving DecidableEq

/-- Interleaving semantics of `dialWithTimeout`.  Channel operations on the
unbuffered `ech`/`worky` fire only as rendezvous between a ready sender and a
ready receiver. -/
inductive DWStep : DWState → DWState → Prop where
  | timerFires (s : DWState) : s.timerFired = false →
      DWStep s { s with timerFired := true }
  | ctxCancels (s : DWState) : s.ctxDone = false →
      DWStep s { s with ctxDone := true }
  | dialReturns (s : DWState) (ok : Bool) : s.dialer = .dialing →
      DWStep s { s with dialer := .sendErr, dialOk := ok }
  | mainTimeout (s : DWState) : s.main = .selecting → s.timerFired = true →
      DWStep s { s with main := .retTimeout, killer := .waiting }
  | mainInterrupt (s : DWState) : s.main = .selecting → s.ctxDone = true →
      DWStep s { s with main := .retInterrupt, killer := .waiting }
  | mainRecvErrNil (s : DWState) :
      s.main = .selecting → s.dialer = .sendErr → s.dialOk = true →
      DWStep s { s with main := .recvConn, dialer := .sendConn }
  | mainRecvErrSome (s : DWState) :
      s.main = .selecting → s.dialer = .sendErr → s.dialOk = false →
      DWStep s { s with main := .retErr, dialer := .sendConn, killer := .waiting }
  | mainRecvConn (s : DWState) : s.main = .recvConn → s.dialer = .sendConn →
      DWStep s { s with main := .retConn, dialer := .finished }
  | killerRecvConn (s : DWState) : s.killer = .waiting → s.dialer = .sendConn →
      DWStep s { s with killer := .done, dialer := .finished,
                        connClosed := s.dialOk }

/-- Reachability under the interleaving semantics. -/
def DWReach : DWState → DWState → Prop :=
  Relation.ReflTransGen DWStep

/-- Initial state of a `dialWithTimeout` call. -/
def dwInit : DWState :=
  { main := .selecting, dialer := .dialing, killer := .notSpawned,
    timerFired := false, ctxDone := false, dialOk := false, connClosed := false }

/-- The state after: the timer fires before the dial returns, the main routine
takes the timeout arm (spawning the killer), and the dial then succeeds. -/
def dwStuck : DWState :=
  { main := .retTimeout, dialer := .sendErr, killer := .waiting,
    timerFired := true, ctxDone := false, dialOk := true, connClosed := false }

/-! ## `sendKeepalives` (jumpconn.go lines 287-305)

The loop's observable behaviour is modelled as a trace of events: each
iteration emits the global request it sends (`c.SendRequest` name, want-reply
flag, payload bytes); a non-error iteration then sleeps for the configured
interval; the first error breaks the loop, after which `cancel()` runs.
`errAt n` tells whether the `n`-th request returns an error; `fuel` bounds the
number of modelled iterations (the Go loop is unbounded). -/

/-- An observable event of the keepalive driver. -/
inductive KAEvent where
  | request (name : String) (wantReply : Bool) (payload : List Nat)
  | sleep (interval : Nat)
  | cancel
  deriving DecidableEq

/-- One iteration of the `sendKeepalives` loop, starting at iteration `n`.
Returns the emitted trace and whether the loop exited within `fuel`
iterations. -/
def kaLoop (errAt : Nat → Bool) (interval n fuel : Nat) : List KAEvent × Bool :=
  match fuel with
  | 0 => ([], false)
  | fuel' + 1 =>
    let ev := KAEvent.request "keepalive@openssh.com" true []
    if errAt n then
      -- lines 298-301 then line 304: break, then cancel()
      ([ev, KAEvent.cancel], true)
    else
      let rest := kaLoop errAt interval (n + 1) fuel'
      (ev :: KAEvent.sleep interval :: rest.1, rest.2)

/-- `sendKeepalives`: the keepalive loop started on the tail client. -/
def sendKeepalives (errAt : Nat → Bool) (interval fuel : Nat) :
    List KAEvent × Bool :=
  kaLoop errAt interval 0 fuel

/-- The trace the loop emits when the first request error occurs at
iteration `k`. -/
def kaExpected (interval : Nat) : Nat → List KAEvent
  | 0 => [KAEvent.request "keepalive@openssh.com" true [], KAEvent.cancel]
  | k + 1 =>
    KAEvent.request "keepalive@openssh.com" true [] ::
      KAEvent.sleep interval :: kaExpected interval k

/-! ## Connection registry (forward.go: `RegisterConn`/`CloseConn`/`closeConn`)

Handles are `Nat`s.  `conns` is the process-wide set; `closedTimes h` counts
how many times `Close` has been invoked on handle `h`, so that double-closes
are observable.  A `net.Conn`'s `Close` returns a nil error the first time and
a "use of closed network connection" error on subsequent calls, which
`connClose` models. -/

/-- The registry (`conns` map) together with per-handle close counters. -/
structure Registry where
  conns : Finset Nat
  closedTimes : Nat → Nat

/-- `c.Close()` on the underlying connection: bump the close counter and
return `none` (nil error) on the first close, `some` error afterwards. -/
def connClose (r : Registry) (c : Nat) : Registry × Option String :=
  ({ r with closedTimes := fun x => if x = c then r.closedTimes x + 1 else r.closedTimes x },
   if r.closedTimes c = 0 then none else some "use of closed network connection")

/-- `RegisterConn` (forward.go lines 221-225). -/
def RegisterConn (r : Registry) (c : Nat) : Registry :=
  { r with conns := insert c r.conns }

/-- `closeConn` (forward.go lines 247-250): `delete(conns, c)` then
`return c.Close()`. -/
def closeConn (r : Registry) (c : Nat) : Registry × Option String :=
  connClose { r with conns := r.conns.erase c } c

/-- `CloseConn` (forward.go lines 229-233): takes the mutex and calls
`closeConn`; the lock has no observable effect in this sequential model. -/
def CloseConn (r : Registry) (c : Nat) : Registry × Option String :=
  closeConn r c

/-- A registry holding exactly one open handle `0`, never closed. -/
def regEx0 : Registry :=
  { conns := {0}, closedTimes := fun _ => 0 }

/-! ## `ShuffleJumps` (jump.go lines 100-105)

`for i := range s { j := rand.Intn(i + 1); s[i], s[j] = s[j], s[i] }`.
The PRNG is modelled as a function `r`; the Go loop always calls it with
`rand.Intn(i+1) ≤ i`, and `swapIdx` degenerates to the identity on any
out-of-range index, so the model is total without changing any reachable
behaviour. -/

/-- Swap the elements at positions `i` and `j` (identity when either index is
out of range, which the Go loop never produces). -/
def swapIdx {α : Type} (l : List α) (i j : Nat) : List α :=
  match l.get? i, l.get? j with
  | some a, some b => (l.set i b).set j a
  | _, _ => l

/-- `ShuffleJumps` with PRNG draws `r` (draw `r i` stands for
`rand.Intn(i+1)`). -/
def shuffleJumps {α : Type} (r : Nat → Nat) (s : List α) : List α :=
  (List.range s.length).foldl (fun acc i => swapIdx acc i (r i)) s

/-! ## Jump records and authentication (jump.go, jumpconn.go lines 101-122)

`jump` mirrors the Go struct; the `ssh.Signer` handle is an abstract `Nat`
id.  The client config built at jumpconn.go lines 111-122 offers exactly the
list `authMethods`. -/

/-- The `jump` struct (jump.go lines 30-36). -/
structure Jump where
  username : String
  host : String
  password : String
  version : String
  key : Option Nat
  deriving DecidableEq

/-- The keyboard-interactive callback `ki` (jumpconn.go lines 102-109): it
ignores the user, instruction, questions and echo flags and returns the
single-element answer slice `[]string{j.password}`. -/
def kiChallenge (j : Jump) (_user _instruction : String)
    (_questions : List String) (_echos : List Bool) : List String :=
  [j.password]

/-- The kinds of `ssh.AuthMethod` values that can appear in a client config:
`ssh.Password`, `ssh.KeyboardInteractive` (carrying its challenge callback),
`ssh.PublicKeys` (carrying a signer handle). -/
inductive AuthMethod where
  | password (secret : String)
  | keyboardInteractive
      (challenge : String → String → List String → List Bool → List String)
  | publicKey (signer : Nat)

/-- Whether an auth method is a public-key method. -/
def isPublicKey : AuthMethod → Bool
  | .publicKey _ => true
  | _ => false

/-- The `Auth` slice of the `ssh.ClientConfig` built for jump `j`
(jumpconn.go lines 116-119): `ssh.Password(j.password)` then
`ssh.KeyboardInteractive(ki)` — nothing else. -/
def authMethods (j : Jump) : List AuthMethod :=
  [.password j.password, .keyboardInteractive (kiChallenge j)]

/-- A jump record carrying a private key (`j.key` set by `ReadJumps`). -/
def jWithKey : Jump :=
  { username := "u", host := "h", password := "p", version := "SSH-2.0-x",
    key := some 0 }

/-! ## The jumpfile reader `ReadJumps` (jump.go lines 39-97)

Strings are processed as `List Char`.  The regular expression
`^([^@]+)@(\S+)\s+(.*)\s(SSH-\S+)$` (JUMPRE) is implemented directly:
because `[^@]+` cannot cross an `@`, group 1 is forced to end at the first
`@`; the remaining backtracking search (greedy `\S+`, `\s+`, `.*`) is
realised by descending searches over split points in leftmost-first
preference order.  Character classes follow RE2: `\s = [\t\n\f\r ]`, `.`
matches anything but `\n`.  `strings.TrimSpace` is modelled over the ASCII
whitespace characters. -/

/-- RE2's Perl class `\s`. -/
def isReWS (c : Char) : Bool :=
  c = ' ' ∨ c = '\t' ∨ c = '\n' ∨ c = '\x0c' ∨ c = '\r'

/-- ASCII whitespace as trimmed by `strings.TrimSpace`. -/
def isTrimWS (c : Char) : Bool :=
  c = ' ' ∨ c = '\t' ∨ c = '\n' ∨ c = '\x0b' ∨ c = '\x0c' ∨ c = '\r'

/-- Index of the first occurrence of `c` in `s`. -/
def firstIdx : List Char → Char → Option Nat
  | [], _ => none
  | a :: s, c => if a = c then some 0 else (firstIdx s c).map (· + 1)

/-- Index of the last occurrence of `c` in `s`. -/
def lastIdx : List Char → Char → Option Nat
  | [], _ => none
  | a :: s, c =>
    match lastIdx s c with
    | some k => some (k + 1)
    | none => if a = c then some 0 else none

/-- Length of the maximal prefix of `s` whose characters satisfy `p`. -/
def prefixLen (p : Char → Bool) : List Char → Nat
  | [] => 0
  | a :: s => if p a then prefixLen p s + 1 else 0

/-- Does `x` match `SSH-\S+` anchored at both ends? -/
def matchesVersion (x : List Char) : Bool :=
  x.take 4 = ['S', 'S', 'H', '-'] ∧ 5 ≤ x.length ∧
    (x.drop 4).all (fun c => ¬ isReWS c)

/-- Largest `t ≤ tmax` such that `rest₂ = g₃ ++ ws ++ g₄` with `|g₃| = t`, `g₃`
free of newlines, `ws` a single `\s`, and `g₄` matching `SSH-\S+$`; returns
the captures `(g₃, g₄)`. -/
def findG3 (rest2 : List Char) : Nat → Option (List Char × List Char)
  | 0 =>
    if 0 < rest2.length ∧ isReWS (rest2.getD 0 ' ') ∧
        matchesVersion (rest2.drop 1) then
      some ([], rest2.drop 1)
    else none
  | t + 1 =>
    let g3 := rest2.take (t + 1)
    let g4 := rest2.drop (t + 2)
    if t + 1 < rest2.length ∧ isReWS (rest2.getD (t + 1) ' ') ∧
        g3.all (fun c => c ≠ '\n') ∧ matchesVersion g4 then
      some (g3, g4)
    else findG3 rest2 t

/-- Try the `\s+` separator lengths `m, m-1, …, 1` after group 2. -/
def tryWsLen (rest1 : List Char) : Nat → Option (List Char × List Char)
  | 0 => none
  | m + 1 =>
    let rest2 := rest1.drop (m + 1)
    match findG3 rest2 rest2.length with
    | some g34 => some g34
    | none => tryWsLen rest1 m

/-- Match `(\S+)\s+(.*)\s(SSH-\S+)$` against `r`, returning the three
captures.  `\S+` cannot cross whitespace, so group 2 is forced to be the
maximal non-space prefix; the following `\s+` then starts at a space. -/
def matchTail (r : List Char) : Option (List Char × List Char × List Char) :=
  let k := prefixLen (fun c => ¬ isReWS c) r
  if k = 0 then none
  else
    let g2 := r.take k
    let rest1 := r.drop k
    let mmax := prefixLen isReWS rest1
    match tryWsLen rest1 mmax with
    | some (g3, g4) => some (g2, g3, g4)
    | none => none

/-- `JUMPRE.FindStringSubmatch` on one line: `none` models a nil result. -/
def matchJumpLine (s : List Char) : Option (List Char × List Char × List Char × List Char) :=
  match firstIdx s '@' with
  | none => none
  | some f =>
    if f = 0 then none
    else
      match matchTail (s.drop (f + 1)) with
      | none => none
      | some (g2, g3, g4) => some (s.take f, g2, g3, g4)

/-- Result of `ReadJumps`: the jump list, the "no jumps in …" error, or the
Go runtime panic from indexing the nil submatch slice. -/
inductive ReadResult where
  | ok (js : List Jump)
  | errNoJumps
  | panicked
  deriving DecidableEq

/-- `KEYPREFIX = "key:"` (jump.go line 24). -/
def juKeyMarker : List Char := ['k', 'e', 'y', ':']

/-- The line loop of `ReadJumps` (jump.go lines 51-94).  `keys kf` models
`getKey(keydir, kf)`: `some id` is a successfully loaded signer, `none` a
read/parse failure (in which case `j.key` stays unset and only a log line is
emitted).  On a line that fails JUMPRE the Go code logs and then evaluates
`ms[1]` on the nil slice — an index-out-of-range panic. -/
def readJumpLines (keys : List Char → Option Nat) :
    List (List Char) → List Jump → ReadResult
  | [], js => if js.isEmpty then .errNoJumps else .ok js
  | l :: rest, js =>
    let l := (l.dropWhile isTrimWS).reverse.dropWhile isTrimWS |>.reverse
    if l.isEmpty ∨ l.headD ' ' = '#' then
      readJumpLines keys rest js
    else
      match matchJumpLine l with
      | none => .panicked
      | some (u, h, p, v) =>
        let key :=
          if p.take 4 = juKeyMarker then keys (p.drop 4) else none
        readJumpLines keys rest
          (js ++ [{ username := String.mk u, host := String.mk h,
                    password := String.mk p, version := String.mk v,
                    key := key }])

/-- `ReadJumps` on file contents `contents` (already slurped; the model's
`keys` function stands for the filesystem and key parsing of `getKey`). -/
def readJumps (keys : List Char → Option Nat) (contents : List Char) :
    ReadResult :=
  readJumpLines keys (contents.splitOn '\n') []

/-! ## Host normalization (jumpconn.go lines 60-64)

`net.SplitHostPort` and `net.JoinHostPort` are embedded from the Go standard
library sources (net/ipsock.go); `normalizeJumpHost` is the code
`_, p, err := net.SplitHostPort(j.host); if "" == p || nil != err
{ j.host = net.JoinHostPort(j.host, DEFPORT) }` with `DEFPORT = "22"`. -/

/-- `net.SplitHostPort`: `none` models a non-nil error (in which case the Go
function also returns empty host and port). -/
def goSplitHostPort (s : List Char) : Option (List Char × List Char) :=
  match lastIdx s ':' with
  | none => none                      -- missing port in address
  | some i =>
    if s.headD ' ' = '[' then
      match firstIdx s ']' with
      | none => none                  -- missing ']' in address
      | some e =>
        if e + 1 = s.length then none -- missing port in address
        else if e + 1 = i then
          if (firstIdx (s.drop 1) '[').isSome then none
          else if (firstIdx (s.drop (e + 1)) ']').isSome then none
          else some ((s.drop 1).take (e - 1), s.drop (i + 1))
        else none                     -- too many colons / missing port
    else
      if (firstIdx (s.take i) ':').isSome then none  -- too many colons
      else if (firstIdx s '[').isSome then none      -- unexpected '['
      else if (firstIdx s ']').isSome then none      -- unexpected ']'
      else some (s.take i, s.drop (i + 1))

/-- `net.JoinHostPort`. -/
def goJoinHostPort (host port : List Char) : List Char :=
  if (firstIdx host ':').isSome then '[' :: host ++ ']' :: ':' :: port
  else host ++ ':' :: port

/-- Did `SplitHostPort` fail, or return an empty port segment?  This is the
condition under which jumpconn.go line 63 rewrites the host. -/
def splitBad (h : List Char) : Bool :=
  match goSplitHostPort h with
  | none => true
  | some (_, p) => p.isEmpty

/-- The host normalization performed before dialing each jump. -/
def normalizeJumpHost (h : List Char) : List Char :=
  match goSplitHostPort h with
  | none => goJoinHostPort h ['2', '2']
  | some (_, p) =>
    if p.isEmpty then goJoinHostPort h ['2', '2'] else h

/-! # Theorems -/

/-! ## C1: teardown on error returns -/

/-- **C1** (refuted — code bug): the claim says every SSH client created
during the build is closed before any error return.  The code violates this
on two error paths.  With `njump = 0` and a single jump that dials and
handshakes but fails the exit probe, `MakeSSHConns` returns the
*no-working-jumps* error (jumpconn.go line 186) with client `0` created and
never closed; with cancellation first observed at the post-loop check
(line 164), it returns *interrupted* (line 165) without calling `CloseJumps`,
again leaving client `0` open. -/
theorem C1_error_paths_leak_clients :
    ((MakeSSHConns ⟨fun _ => .ok, fun _ => true, fun _ => false, fun _ => false,
        false⟩ 0 1).1 = .errNoWorkingJumps ∧
      (MakeSSHConns ⟨fun _ => .ok, fun _ => true, fun _ => false, fun _ => false,
        false⟩ 0 1).2.nextId = 1 ∧
      (MakeSSHConns ⟨fun _ => .ok, fun _ => true, fun _ => false, fun _ => false,
        false⟩ 0 1).2.closed = []) ∧
    ((MakeSSHConns ⟨fun _ => .ok, fun _ => true, fun _ => true, fun _ => false,
        true⟩ 0 1).1 = .errInterrupt ∧
      (MakeSSHConns ⟨fun _ => .ok, fun _ => true, fun _ => true, fun _ => false,
        true⟩ 0 1).2.nextId = 1 ∧
      (MakeSSHConns ⟨fun _ => .ok, fun _ => true, fun _ => true, fun _ => false,
        true⟩ 0 1).2.closed = []) := by
  decide

/-! ## C4: `njump = 0` with zero working jumps -/

/-- **C4** (refuted — code bug): the claim says a build with `N = 0` in which
no jump yields a working client returns the *no-working-jumps* error.  In
fact the chain is empty after the loop and line 181 evaluates
`cs[len(cs)-1]` on the empty slice: an index-out-of-range panic, both when
every dial fails and when every handshake fails. -/
theorem C4_empty_chain_panics :
    (MakeSSHConns ⟨fun _ => .otherErr, fun _ => true, fun _ => true,
      fun _ => false, false⟩ 0 1).1 = .panicked ∧
    (MakeSSHConns ⟨fun _ => .ok, fun _ => false, fun _ => true,
      fun _ => false, false⟩ 0 2).1 = .panicked := by
  decide

/-! ## C6: invalid jumpfile lines -/

/-- **C6** (refuted — code bug): the claim says `ReadJumps` logs an invalid
line and continues, returning the jumps of all matching lines.  The code
(jump.go lines 58-67) logs the mismatch but then reads `ms[1]` from the nil
submatch slice: an index-out-of-range panic.  A jumpfile with a valid line
followed by a line that fails JUMPRE panics instead of returning the one
valid jump, which the same model does return when the invalid line is
absent. -/
theorem C6_invalid_line_panics :
    readJumps (fun _ => none) "u@h p SSH-2.0-x\nnot a valid line".data
      = .panicked ∧
    readJumps (fun _ => none) "u@h p SSH-2.0-x".data
      = .ok [{ username := "u", host := "h", password := "p",
               version := "SSH-2.0-x", key := none }] := by
  decide

/-! ## C9: double close-and-remove -/

/-- **C9** (counterexample): the claim says the second `CloseConn` on the
same handle neither re-closes the handle nor surfaces an error.  Starting
from a registry holding the never-closed handle `0`, two `CloseConn 0` calls
leave the handle's `Close` invoked twice, and the second call returns the
already-closed error to its caller. -/
theorem C9_second_close_recloses :
    (CloseConn (CloseConn regEx0 0).1 0).1.closedTimes 0 = 2 ∧
    ((CloseConn (CloseConn regEx0 0).1 0).2).isSome = true := by
  decide

/-- **C9** (amended): after the first `CloseConn` the handle is no longer a
member of the registry, and a second `CloseConn` on the same handle leaves
the registry unchanged; but the second call does invoke `Close` on the
handle again and returns the error from the already-closed handle. -/
theorem C9_amended_double_close (r : Registry) (c : Nat) :
    c ∉ (CloseConn r c).1.conns ∧
    (CloseConn (CloseConn r c).1 c).1.conns = (CloseConn r c).1.conns ∧
    (CloseConn (CloseConn r c).1 c).1.closedTimes c
      = (CloseConn r c).1.closedTimes c + 1 ∧
    ((CloseConn (CloseConn r c).1 c).2).isSome = true := by
  refine ⟨?_, ?_, ?_, ?_⟩ <;>
    simp [CloseConn, closeConn, connClose, Finset.erase_idem]

/-! ## C5: authentication methods -/

/-- **C5** (counterexample): the claim says the handshake offers password,
then keyboard-interactive answering every prompt, then the record's key when
present.  For a record carrying a key, the `Auth` slice has exactly two
entries, none of them a public-key method, and the keyboard-interactive
callback returns the single-element answer `["p"]` even for three prompts. -/
theorem C5_no_key_method_offered :
    jWithKey.key.isSome = true ∧
    (authMethods jWithKey).length = 2 ∧
    (authMethods jWithKey).map isPublicKey = [false, false] ∧
    kiChallenge jWithKey "u" "inst" ["q1", "q2", "q3"] [true, false, true]
      = ["p"] :=
  ⟨rfl, rfl, rfl, rfl⟩

/-- **C5** (amended): for every jump record the handshake offers exactly two
authentication methods, in order: password carrying the record's password,
then keyboard-interactive whose callback returns the single answer
`[password]` regardless of the prompts posed; no public-key method is ever
offered, even when the record carries a key. -/
theorem C5_amended_auth_order (j : Jump) (u instr : String)
    (qs : List String) (es : List Bool) :
    authMethods j
      = [.password j.password, .keyboardInteractive (kiChallenge j)] ∧
    (authMethods j).map isPublicKey = [false, false] ∧
    kiChallenge j u instr qs es = [j.password] :=
  ⟨rfl, rfl, rfl⟩

/-! ## C8: keepalive driver -/

/-- If the first request error occurs at iteration `n + k`, the loop starting
at iteration `n` emits exactly the expected trace and exits. -/
theorem kaLoop_eq_expected (errAt : Nat → Bool) (interval : Nat) :
    ∀ (k n fuel : Nat), errAt (n + k) = true →
      (∀ m, m < k → errAt (n + m) = false) → k < fuel →
      kaLoop errAt interval n fuel = (kaExpected interval k, true) := by
  intro k
  induction k with
  | zero =>
    intro n fuel hk _ hfuel
    match fuel, hfuel with
    | fuel' + 1, _ =>
      simp only [Nat.add_zero] at hk
      simp [kaLoop, kaExpected, hk]
  | succ k ih =>
    intro n fuel hk hmin hfuel
    match fuel, hfuel with
    | fuel' + 1, hfuel =>
      have h0 : errAt n = false := by simpa using hmin 0 (Nat.succ_pos k)
      have hk' : errAt (n + 1 + k) = true := by
        rw [show n + 1 + k = n + (k + 1) by omega]; exact hk
      have hmin' : ∀ m, m < k → errAt (n + 1 + m) = false := by
        intro m hm
        rw [show n + 1 + m = n + (m + 1) by omega]
        exact hmin (m + 1) (by omega)
      have hfuel' : k < fuel' := by omega
      simp [kaLoop, h0, ih (n + 1) fuel' hk' hmin' hfuel', kaExpected]

/-- Every request in the expected keepalive trace is the
`keepalive@openssh.com` global request with want-reply set and no payload. -/
theorem kaExpected_request_shape (interval : Nat) :
    ∀ (k : Nat) (n : String) (w : Bool) (p : List Nat),
      KAEvent.request n w p ∈ kaExpected interval k →
      n = "keepalive@openssh.com" ∧ w = true ∧ p = [] := by
  intro k
  induction k with
  | zero =>
    intro n w p hmem
    simp only [kaExpected, List.mem_cons, List.mem_singleton] at hmem
    rcases hmem with h | h | h
    · cases h; exact ⟨rfl, rfl, rfl⟩
    · cases h
    · cases h
  | succ k ih =>
    intro n w p hmem
    simp only [kaExpected, List.mem_cons] at hmem
    rcases hmem with h | h | h
    · cases h; exact ⟨rfl, rfl, rfl⟩
    · cases h
    · exact ih n w p h

/-- The expected keepalive trace ends with the `cancel()` call. -/
theorem kaExpected_getLast (interval : Nat) :
    ∀ k : Nat, (kaExpected interval k).getLast? = some .cancel := by
  intro k
  induction k with
  | zero => rfl
  | succ k ih =>
    simp only [kaExpected]
    rw [List.getLast?_cons_cons]
    cases hk : kaExpected interval k with
    | nil => cases k <;> simp [kaExpected] at hk
    | cons c rest =>
      rw [List.getLast?_cons_cons]
      rw [hk] at ih
      exact ih

/-- **C8** (confirmed): once started on the tail client, the keepalive driver
repeatedly issues the SSH global request `keepalive@openssh.com` with
want-reply true and an empty payload, sleeping the configured interval
between requests; the first request returning an error (iteration `k`)
terminates the loop after exactly `k + 1` requests, and on exit the loop
invokes the global cancellation function. -/
theorem C8_keepalive_behavior (errAt : Nat → Bool) (interval fuel k : Nat)
    (hk : errAt k = true) (hmin : ∀ m, m < k → errAt m = false)
    (hfuel : k < fuel) :
    sendKeepalives errAt interval fuel = (kaExpected interval k, true) ∧
    (∀ n w p, KAEvent.request n w p ∈ kaExpected interval k →
      n = "keepalive@openssh.com" ∧ w = true ∧ p = []) ∧
    (kaExpected interval k).getLast? = some .cancel := by
  refine ⟨?_, kaExpected_request_shape interval k, kaExpected_getLast interval k⟩
  have := kaLoop_eq_expected errAt interval k 0 fuel (by simpa using hk)
    (by intro m hm; simpa using hmin m hm) hfuel
  simpa [sendKeepalives] using this

/-- Witness for C8: the error first occurs at iteration 2 with interval 7 and
fuel 5; the loop emits three requests and the cancel call. -/
theorem C8_keepalive_witness :
    (fun n => decide (2 ≤ n)) 2 = true ∧
    (∀ m, m < 2 → (fun n => decide (2 ≤ n)) m = false) ∧
    2 < 5 ∧
    (sendKeepalives (fun n => decide (2 ≤ n)) 7 5 = (kaExpected 7 2, true) ∧
      (∀ n w p, KAEvent.request n w p ∈ kaExpected 7 2 →
        n = "keepalive@openssh.com" ∧ w = true ∧ p = []) ∧
      (kaExpected 7 2).getLast? = some .cancel) :=
  ⟨by decide, by decide, by decide,
    C8_keepalive_behavior (fun n => decide (2 ≤ n)) 7 5 2 (by decide)
      (by decide) (by decide)⟩

/-! ## C10: `ShuffleJumps` permutes in place -/

/-- Setting position `k` of a list is, up to permutation, replacing the
element at `k`. -/
theorem set_perm_cons_eraseIdx {α : Type} :
    ∀ (l : List α) (k : Nat) (b : α), k < l.length →
      (l.set k b).Perm (b :: l.eraseIdx k) := by
  intro l
  induction l with
  | nil => intro k b h; simp at h
  | cons x xs ih =>
    intro k b h
    cases k with
    | zero => simp
    | succ k' =>
      have h' : k' < xs.length := by simpa using h
      simp only [List.set_cons_succ, List.eraseIdx_cons_succ]
      exact ((ih k' b h').cons x).trans (List.Perm.swap b x _)

/-- A list is, up to permutation, its `k`-th element consed onto the list
with index `k` erased. -/
theorem perm_cons_eraseIdx_self {α : Type} :
    ∀ (l : List α) (k : Nat) (a : α), l.get? k = some a →
      l.Perm (a :: l.eraseIdx k) := by
  intro l
  induction l with
  | nil => intro k a h; simp at h
  | cons x xs ih =>
    intro k a h
    cases k with
    | zero =>
      simp only [List.get?_cons_zero, Option.some.injEq] at h
      subst h; simp
    | succ k' =>
      simp only [List.get?_cons_succ] at h
      simp only [List.eraseIdx_cons_succ]
      exact ((ih k' a h).cons x).trans (List.Perm.swap a x _)

/-- The two-set swap at indices `j ≤ i` permutes the list. -/
theorem swap_sets_perm {α : Type} :
    ∀ (l : List α) (i j : Nat) (a b : α), j ≤ i →
      l.get? i = some a → l.get? j = some b →
      ((l.set i b).set j a).Perm l := by
  intro l
  induction l with
  | nil => intro i j a b _ hi _; simp at hi
  | cons x xs ih =>
    intro i j a b hji hi hj
    cases j with
    | zero =>
      simp only [List.get?_cons_zero, Option.some.injEq] at hj
      subst hj
      cases i with
      | zero =>
        simp only [List.get?_cons_zero, Option.some.injEq] at hi
        subst hi; simp
      | succ i' =>
        simp only [List.get?_cons_succ] at hi
        have hlen : i' < xs.length := List.get?_eq_some.mp hi |>.1
        simp only [List.set_cons_succ, List.set_cons_zero]
        exact ((set_perm_cons_eraseIdx xs i' x hlen).cons a).trans
          ((List.Perm.swap x a _).trans
            ((perm_cons_eraseIdx_self xs i' a hi).cons x).symm)
    | succ j' =>
      cases i with
      | zero => omega
      | succ i' =>
        simp only [List.get?_cons_succ] at hi hj
        simp only [List.set_cons_succ]
        exact (ih i' j' a b (by omega) hi hj).cons x
  

/-- `swapIdx` permutes the list, whatever the indices. -/
theorem swapIdx_perm {α : Type} (l : List α) (i j : Nat) :
    (swapIdx l i j).Perm l := by
  unfold swapIdx
  cases hi : l.get? i with
  | none => exact .refl l
  | some a =>
    cases hj : l.get? j with
    | none => exact .refl l
    | some b =>
      show ((l.set i b).set j a).Perm l
      rcases Nat.le_total j i with hji | hij
      · exact swap_sets_perm l i j a b hji hi hj
      · rcases Nat.eq_or_lt_of_le hij with heq | hlt
        · subst heq
          exact swap_sets_perm l i i a b (Nat.le_refl i) hi hj
        · rw [List.set_comm b a l (Nat.ne_of_lt hlt)]
          exact swap_sets_perm l j i b a (Nat.le_of_lt hlt) hj hi

/-- Folding swaps over any index list permutes the accumulator. -/
theorem foldl_swapIdx_perm {α : Type} (r : Nat → Nat) :
    ∀ (ixs : List Nat) (acc : List α),
      (ixs.foldl (fun a i => swapIdx a i (r i)) acc).Perm acc := by
  intro ixs
  induction ixs with
  | nil => intro acc; exact .refl acc
  | cons i is ih =>
    intro acc
    exact (ih (swapIdx acc i (r i))).trans (swapIdx_perm acc i (r i))

/-- **C10** (confirmed): `ShuffleJumps` permutes the slice in place — for
every jump slice and every sequence of PRNG draws, the shuffled slice is a
permutation of the original (same length, same multiset of records; nothing
lost, duplicated or altered). -/
theorem C10_shuffle_is_permutation (r : Nat → Nat) (s : List Jump) :
    (shuffleJumps r s).Perm s ∧ (shuffleJumps r s).length = s.length :=
  ⟨foldl_swapIdx_perm r (List.range s.length) s,
    (foldl_swapIdx_perm r (List.range s.length) s).length_eq⟩

/-! ## C3: `dialWithTimeout` after a timeout -/

/-- Invariant of every state reachable after the main routine returned on the
timeout arm while the dialer was still blocked at `ech <- err` with a
successful conn in hand: nothing can ever receive on `ech`, so the dialer
never reaches `worky <- c`, the killer never receives the conn, and the conn
is never closed. -/
def dwLeakInv (s : DWState) : Prop :=
  s.main = .retTimeout ∧ s.dialer = .sendErr ∧ s.killer = .waiting ∧
    s.connClosed = false

/-- `dwLeakInv` is preserved by every step of the interleaving semantics. -/
theorem dwLeakInv_step (s s' : DWState) (hP : dwLeakInv s)
    (hstep : DWStep s s') : dwLeakInv s' := by
  obtain ⟨h1, h2, h3, h4⟩ := hP
  cases hstep <;> simp_all [dwLeakInv]

/-- **C3** (refuted — code bug): the claim says that when the connect timeout
fires before the dial returns, an eventually successful connection is closed
asynchronously.  In the code the dialing goroutine sends on the unbuffered
error channel `ech` before sending the conn on `worky` (lines 224-225), but
after the timeout arm of the select nobody ever receives on `ech`; the dialer
blocks there forever, `killConnFromChannel` never receives the conn, and the
conn's `Close` is never invoked.  The stuck configuration is reachable
(timer fires, main returns timeout, dial then succeeds), and in every state
reachable from it the connection remains unclosed (and the dial result is
never handed back: the main routine stays at its timeout return). -/
theorem C3_timeout_never_closes_conn :
    DWReach dwInit dwStuck ∧
    (∀ s, DWReach dwStuck s → s.connClosed = false ∧ s.main = .retTimeout) := by
  constructor
  · refine Relation.ReflTransGen.head (DWStep.timerFires dwInit rfl) ?_
    refine Relation.ReflTransGen.head (DWStep.mainTimeout _ rfl rfl) ?_
    exact Relation.ReflTransGen.single (DWStep.dialReturns _ true rfl)
  · intro s hreach
    have hinv : dwLeakInv s := by
      induction hreach with
      | refl => exact ⟨rfl, rfl, rfl, rfl⟩
      | tail _ hstep ih => exact dwLeakInv_step _ _ ih hstep
    exact ⟨hinv.2.2.2, hinv.1⟩

/-! ## C7: host normalization before dialing -/

/-- `firstIdx` finds nothing exactly when the character is absent. -/
theorem firstIdx_eq_none {s : List Char} {c : Char} :
    firstIdx s c = none ↔ c ∉ s := by
  induction s with
  | nil => simp [firstIdx]
  | cons a s ih =>
    simp only [firstIdx, List.mem_cons]
    by_cases hac : a = c
    · subst hac; simp
    · rw [if_neg hac, Option.map_eq_none', ih]
      constructor
      · intro hns hmem
        rcases hmem with hca | hmem
        · exact hac hca.symm
        · exact hns hmem
      · intro hn hmem
        exact hn (Or.inr hmem)

/-- `lastIdx` finds nothing exactly when the character is absent. -/
theorem lastIdx_eq_none {s : List Char} {c : Char} :
    lastIdx s c = none ↔ c ∉ s := by
  induction s with
  | nil => simp [lastIdx]
  | cons a s ih =>
    simp only [lastIdx, List.mem_cons]
    cases hls : lastIdx s c with
    | some k =>
      have hcs : c ∈ s := by
        by_contra hns
        rw [ih.mpr hns] at hls
        cases hls
      simp [hcs]
    | none =>
      have hns : c ∉ s := ih.mp hls
      by_cases hac : a = c
      · subst hac; simp
      · simp only [if_neg hac]
        simp only [eq_self_iff_true, true_iff]
        simp [hns]
        exact fun h => hac h.symm

/-- The last occurrence of `c` in `base ++ c :: port` with `c ∉ port` sits at
index `base.length`. -/
theorem lastIdx_append_cons (c : Char) : ∀ (base port : List Char),
    c ∉ port → lastIdx (base ++ c :: port) c = some base.length := by
  intro base
  induction base with
  | nil =>
    intro port hp
    have hnone : lastIdx port c = none := lastIdx_eq_none.mpr hp
    simp [lastIdx, hnone]
  | cons a base ih =>
    intro port hp
    have hstep := ih port hp
    show lastIdx (a :: (base ++ c :: port)) c = some (base.length + 1)
    simp [lastIdx, hstep]

/-- A character that is not a digit does not occur in an all-digit string. -/
theorem digits_no_char {port : List Char} (hd : port.all Char.isDigit = true)
    (c : Char) (hc : c.isDigit = false) : c ∉ port := by
  intro hmem
  have := List.all_eq_true.mp hd c hmem
  rw [hc] at this
  cases this

/-- `net.SplitHostPort` on a well-formed `base ++ ":" ++ port`. -/
theorem goSplit_valid (base port : List Char) (hcb : ':' ∉ base)
    (hbb : '[' ∉ base) (hrb : ']' ∉ base) (hcp : ':' ∉ port)
    (hbp : '[' ∉ port) (hrp : ']' ∉ port) :
    goSplitHostPort (base ++ ':' :: port) = some (base, port) := by
  have hl : lastIdx (base ++ ':' :: port) ':' = some base.length :=
    lastIdx_append_cons ':' base port hcp
  have hhd : ¬ (base ++ ':' :: port).headD ' ' = '[' := by
    cases base with
    | nil => simp
    | cons a b =>
      simp only [List.cons_append, List.headD_cons]
      intro heq
      exact hbb (heq ▸ List.mem_cons_self a b)
  have htake : (base ++ ':' :: port).take base.length = base :=
    List.take_left base _
  have hdrop : (base ++ ':' :: port).drop (base.length + 1) = port := by
    have hre : base ++ ':' :: port = (base ++ [':']) ++ port := by simp
    rw [hre]
    exact List.drop_left' (by simp)
  have hnb : firstIdx (base ++ ':' :: port) '[' = none := by
    rw [firstIdx_eq_none]
    simp only [List.mem_append, List.mem_cons]
    rintro (hm | hm | hm)
    · exact hbb hm
    · cases hm
    · exact hbp hm
  have hnr : firstIdx (base ++ ':' :: port) ']' = none := by
    rw [firstIdx_eq_none]
    simp only [List.mem_append, List.mem_cons]
    rintro (hm | hm | hm)
    · exact hrb hm
    · cases hm
    · exact hrp hm
  have hfb : firstIdx base ':' = none := firstIdx_eq_none.mpr hcb
  simp only [goSplitHostPort, hl]
  rw [if_neg hhd]
  rw [htake, hfb]
  simp [hnb, hnr, hdrop]

/-- Appending the default port always changes the string (its length grows by
3 or, for a bracket-wrapped host, by 5). -/
theorem goJoin22_ne (h : List Char) : goJoinHostPort h ['2', '2'] ≠ h := by
  intro heq
  have hlen := congrArg List.length heq
  by_cases hc : (firstIdx h ':').isSome = true
  · simp [goJoinHostPort, hc, List.length_append] at hlen
    omega
  · simp [goJoinHostPort, hc, List.length_append] at hlen

/-- **C7** (confirmed): before each jump is dialed, the host string is
rewritten with the default port exactly when `net.SplitHostPort` fails or
yields an empty port segment (`splitBad`): a host containing no colon becomes
`host:22`; a host of shape `base:port` with a well-formed base and a
non-empty all-digit port is left unchanged; and in general the host is
changed iff its port segment is missing or unparsable. -/
theorem C7_host_normalization (h : List Char) :
    (':' ∉ h → normalizeJumpHost h = h ++ ':' :: ['2', '2']) ∧
    (∀ base port, ':' ∉ base → '[' ∉ base → ']' ∉ base → port ≠ [] →
      port.all Char.isDigit = true → h = base ++ ':' :: port →
      normalizeJumpHost h = h) ∧
    (normalizeJumpHost h ≠ h ↔ splitBad h = true) := by
  refine ⟨?_, ?_, ?_⟩
  · intro hc
    have hl := lastIdx_eq_none.mpr hc
    have hf := firstIdx_eq_none.mpr hc
    simp [normalizeJumpHost, goSplitHostPort, hl, goJoinHostPort, hf]
  · rintro base port hcb hbb hrb hpne hdig rfl
    have hcp : ':' ∉ port := digits_no_char hdig ':' (by decide)
    have hbp : '[' ∉ port := digits_no_char hdig '[' (by decide)
    have hrp : ']' ∉ port := digits_no_char hdig ']' (by decide)
    have hsp := goSplit_valid base port hcb hbb hrb hcp hbp hrp
    have hpe : port.isEmpty = false := by
      cases port with
      | nil => exact absurd rfl hpne
      | cons _ _ => rfl
    simp [normalizeJumpHost, hsp, hpe]
  · constructor
    · intro hne
      cases hsp : goSplitHostPort h with
      | none => simp [splitBad, hsp]
      | some pr =>
        obtain ⟨host, p⟩ := pr
        by_cases hpe : p.isEmpty = true
        · simp [splitBad, hsp, hpe]
        · exfalso
          apply hne
          simp [normalizeJumpHost, hsp, hpe]
    · intro hb heq
      cases hsp : goSplitHostPort h with
      | none =>
        have hnj : normalizeJumpHost h = goJoinHostPort h ['2', '2'] := by
          simp [normalizeJumpHost, hsp]
        exact goJoin22_ne h (hnj ▸ heq)
      | some pr =>
        obtain ⟨host, p⟩ := pr
        have hpe : p.isEmpty = true := by
          simpa [splitBad, hsp] using hb
        have hnj : normalizeJumpHost h = goJoinHostPort h ['2', '2'] := by
          simp [normalizeJumpHost, hsp, hpe]
        exact goJoin22_ne h (hnj ▸ heq)

/-- Witness for C7: `example.com` (no port segment) gains `:22`;
`host:22` (valid port) is left unchanged. -/
theorem C7_host_normalization_witness :
    (':' ∉ "example.com".data ∧
      normalizeJumpHost "example.com".data
        = "example.com".data ++ ':' :: ['2', '2']) ∧
    normalizeJumpHost "host:22".data = "host:22".data :=
  ⟨⟨by decide, (C7_host_normalization "example.com".data).1 (by decide)⟩,
    (C7_host_normalization "host:22".data).2.1 "host".data "22".data
      (by decide) (by decide) (by decide) (by decide) (by decide) (by decide)⟩

/-! ## C2: probe guarantee on successful builds -/

/-- Whenever `buildLoop` returns a chain, the chain is nonempty and either
its tail was the last client probed and passed, or the last probe failed on
the then-tail, that client was closed and removed, and the shortened chain
was returned without any further probe. -/
theorem buildLoop_ok_tail_probe (env : BuildEnv) (njump : Nat) :
    ∀ (rem i : Nat) (cs : List Nat) (st : BuildState) (out : List Nat)
      (st' : BuildState),
      buildLoop env njump i rem cs st = (.ok out, st') →
      out ≠ [] ∧
      ((∃ t, out.getLast? = some t ∧ st'.probes.getLast? = some t ∧
          env.exitOK t = true) ∨
        (∃ u, st'.probes.getLast? = some u ∧ env.exitOK u = false ∧
          st'.closed.getLast? = some u)) := by
  intro rem
  induction rem with
  | zero =>
    intro i cs st out st' h
    simp only [buildLoop] at h
    by_cases hca : env.cancelAfter = true
    · rw [if_pos hca] at h
      simp at h
    · rw [if_neg hca] at h
      by_cases hins : njump ≠ 0 ∧ cs.length < njump
      · rw [if_pos hins] at h
        simp at h
      · rw [if_neg hins] at h
        cases hlast : cs.getLast? with
        | none =>
          simp only [hlast] at h
          simp at h
        | some t =>
          simp only [hlast] at h
          by_cases hex : env.exitOK t = true
          · rw [if_pos hex] at h
            injection h with h1 h2
            injection h1 with h1
            subst h1
            subst h2
            refine ⟨?_, Or.inl ⟨t, hlast, ?_, hex⟩⟩
            · intro hnil
              subst hnil
              simp at hlast
            · simp [probeTail, List.getLast?_concat]
          · rw [if_neg hex] at h
            have hexf : env.exitOK t = false := by
              revert hex
              cases env.exitOK t <;> simp
            by_cases hlen : cs.length = 1
            · rw [if_pos hlen] at h
              simp at h
            · rw [if_neg hlen] at h
              have hrm : removeLastSt (probeTail st t) cs
                  = some (cs.dropLast, closeClient (probeTail st t) t) := by
                simp [removeLastSt, hlast]
              simp only [hrm] at h
              injection h with h1 h2
              injection h1 with h1
              subst h1
              subst h2
              constructor
              · have hne : cs ≠ [] := by
                  intro hnil
                  subst hnil
                  simp at hlast
                have hpos : 0 < cs.dropLast.length := by
                  rw [List.length_dropLast]
                  have := List.length_pos.mpr hne
                  omega
                exact List.length_pos.mp hpos
              · refine Or.inr ⟨t, ?_, hexf, ?_⟩
                · simp [closeClient, probeTail, List.getLast?_concat]
                · simp [closeClient, probeTail, List.getLast?_concat]
  | succ rem' ih =>
    intro i cs st out st' h
    simp only [buildLoop] at h
    by_cases hca : env.cancelAt i = true
    · rw [if_pos hca] at h
      simp at h
    · rw [if_neg hca] at h
      cases hd : env.dial i with
      | forwardErr =>
        simp only [hd] at h
        cases hrm : removeLastSt st cs with
        | none =>
          simp only [hrm] at h
          simp at h
        | some p =>
          obtain ⟨cs2, st2⟩ := p
          simp only [hrm] at h
          exact ih (i + 1) cs2 st2 out st' h
      | otherErr =>
        simp only [hd] at h
        exact ih (i + 1) cs st out st' h
      | ok =>
        simp only [hd] at h
        by_cases hhs : env.handshake i = true
        · rw [if_pos hhs] at h
          by_cases hnj : njump ≠ 0 ∧ njump ≤ (cs ++ [st.nextId]).length
          · rw [if_pos hnj] at h
            by_cases hex : env.exitOK st.nextId = true
            · rw [if_pos hex] at h
              injection h with h1 h2
              injection h1 with h1
              subst h1
              subst h2
              refine ⟨by simp, Or.inl ⟨st.nextId, ?_, ?_, hex⟩⟩
              · simp [List.getLast?_concat]
              · simp [probeTail, List.getLast?_concat]
            · rw [if_neg hex] at h
              cases hrm : removeLastSt
                  (probeTail { st with nextId := st.nextId + 1 } st.nextId)
                  (cs ++ [st.nextId]) with
              | none =>
                simp only [hrm] at h
                simp at h
              | some p =>
                obtain ⟨cs3, stC⟩ := p
                simp only [hrm] at h
                exact ih (i + 1) cs3 stC out st' h
          · rw [if_neg hnj] at h
            exact ih (i + 1) (cs ++ [st.nextId])
              { st with nextId := st.nextId + 1 } out st' h
        · rw [if_neg hhs] at h
          exact ih (i + 1) cs st out st' h

/-- **C2** (counterexample): the claim says every successful build's tail
passed the reachability probe, the result being the longest prefix whose tail
passes.  With `njump = 0`, two jumps that dial and handshake, and an exit
probe that fails through every client, the post-loop probe fails on client 1,
the chain is shortened once and returned immediately: the build succeeds
with chain `[0]` although client 0 fails the probe and was never probed
(the only probe on record is the failed one on client 1).  Under the claim
this input would have to produce the *no-working-jumps* error. -/
theorem C2_unprobed_tail_returned :
    (MakeSSHConns ⟨fun _ => .ok, fun _ => true, fun _ => false, fun _ => false,
      false⟩ 0 2).1 = .ok [0] ∧
    (MakeSSHConns ⟨fun _ => .ok, fun _ => true, fun _ => false, fun _ => false,
      false⟩ 0 2).2.probes = [1] ∧
    (⟨fun _ => .ok, fun _ => true, fun _ => false, fun _ => false,
      false⟩ : BuildEnv).exitOK 0 = false := by
  decide

/-- **C2** (amended): for every successful build the returned chain is
nonempty, and either its tail was the last client probed and it passed the
reachability probe, or the last probe failed on the then-tail, that client
was closed and dropped, and the chain shortened by that one client is
returned without any further probe (so the new tail is unprobed). -/
theorem C2_amended_probe_guarantee (env : BuildEnv) (njump numJumps : Nat)
    (out : List Nat) (st' : BuildState)
    (h : MakeSSHConns env njump numJumps = (.ok out, st')) :
    out ≠ [] ∧
    ((∃ t, out.getLast? = some t ∧ st'.probes.getLast? = some t ∧
        env.exitOK t = true) ∨
      (∃ u, st'.probes.getLast? = some u ∧ env.exitOK u = false ∧
        st'.closed.getLast? = some u)) :=
  buildLoop_ok_tail_probe env njump numJumps 0 [] ⟨0, [], []⟩ out st' h

/-- Witness for C2 (amended): one good jump with a passing probe builds the
chain `[0]`, whose tail was probed and passed. -/
theorem C2_amended_witness :
    MakeSSHConns ⟨fun _ => .ok, fun _ => true, fun _ => true, fun _ => false,
        false⟩ 0 1 = (.ok [0], ⟨1, [], [0]⟩) ∧
    (([0] : List Nat) ≠ [] ∧
      ((∃ t, ([0] : List Nat).getLast? = some t ∧
          (⟨1, [], [0]⟩ : BuildState).probes.getLast? = some t ∧
          (⟨fun _ => .ok, fun _ => true, fun _ => true, fun _ => false,
            false⟩ : BuildEnv).exitOK t = true) ∨
        (∃ u, (⟨1, [], [0]⟩ : BuildState).probes.getLast? = some u ∧
          (⟨fun _ => .ok, fun _ => true, fun _ => true, fun _ => false,
            false⟩ : BuildEnv).exitOK u = false ∧
          (⟨1, [], [0]⟩ : BuildState).closed.getLast? = some u))) :=
  ⟨by decide,
    C2_amended_probe_guarantee
      ⟨fun _ => .ok, fun _ => true, fun _ => true, fun _ => false, false⟩
      0 1 [0] ⟨1, [], [0]⟩ (by decide)⟩
